import Mathlib

/-!
Verification of the chat-relay servers of the course-creation agent
repository (`src/app/server.py`, `src/judge/app/server.py`,
`src/orchestrator/app/server.py`).

The three servers share one pattern: get-or-create a session keyed by
(app_name, user_id, session_id), run the agent runner to obtain a
sequence of events, and aggregate the events' text parts either into a
single buffered response (`/api/chat`) or into a newline-delimited
stream of progress records followed by one result record
(`/api/chat_stream`).  The definitions below embed exactly that logic;
each mirrors the named Python function it was translated from.
-/

namespace CourseAgent

/-- ASCII whitespace characters removed by Python's `str.strip()`.
(`str.strip()` also removes some further Unicode whitespace; only the
ASCII subset occurs in this development.) -/
def isPyWs (c : Char) : Bool :=
  c == ' ' || c == '\t' || c == '\n' || c == '\r' || c == '\x0b' || c == '\x0c'

/-- Drop trailing whitespace characters from a list of characters. -/
def dropRightWs (l : List Char) : List Char :=
  (l.reverse.dropWhile isPyWs).reverse

/-- Python's `str.strip()`: remove leading and trailing whitespace. -/
def pyStrip (s : String) : String :=
  ⟨(dropRightWs s.data).dropWhile isPyWs⟩

/-- One part of an event's content; `text` is optional
(`genai` part objects may carry no text). -/
structure Part where
  text : Option String
  deriving DecidableEq, Repr

/-- The content of an event: an ordered list of parts. -/
structure Content where
  parts : List Part
  deriving DecidableEq, Repr

/-- An agent event as consumed by the servers: only the `author` field
and the optional `content` are ever read. -/
structure Event where
  author : String
  content : Option Content
  deriving DecidableEq, Repr

/-- The Python truthiness test `if part.text:` — a part contributes its
text exactly when the text is present and non-empty. -/
def fragOf (p : Part) : Option String :=
  match p.text with
  | some t => if t = "" then none else some t
  | none => none

/-- The text fragments one event contributes, in part order.  Mirrors
the guard `if event.content and event.content.parts:` followed by the
per-part truthiness test, shared by both server loops. -/
def eventFragments (e : Event) : List String :=
  match e.content with
  | some c => if c.parts.isEmpty then [] else c.parts.filterMap fragOf
  | none => []

/-- All text fragments of a turn, in event order then part order. -/
def turnFragments (events : List Event) : List String :=
  (events.map eventFragments).flatten

/-- Inner loop of the buffered `chat` handlers
(`src/app/server.py:146-150`, `src/judge/app/server.py:78-81`):
`if part.text: final_text += part.text + "\n"`. -/
def partStepNl (acc : String) (p : Part) : String :=
  match p.text with
  | some t => if t = "" then acc else acc ++ t ++ "\n"
  | none => acc

/-- Body of the buffered event loop: guard on content/parts, then fold
the parts with `partStepNl`. -/
def bufferedStep (acc : String) (e : Event) : String :=
  match e.content with
  | some c => if c.parts.isEmpty then acc else c.parts.foldl partStepNl acc
  | none => acc

/-- The buffered `/api/chat` response text
(`src/app/server.py:138-152`, identically `src/judge/app/server.py:74-83`):
start from `final_text = ""`, run the event loop, return
`final_text.strip()`. -/
def chatResponse (events : List Event) : String :=
  pyStrip (events.foldl bufferedStep "")

/-- The static author → progress-message mapping of the streaming
handler (`src/orchestrator/app/server.py:89-94`). -/
def progressText (author : String) : Option String :=
  if author = "researcher" then some "🔍 Researcher is gathering information..."
  else if author = "judge" then some "⚖️ Judge is evaluating findings..."
  else if author = "content_builder" then some "✍️ Content Builder is writing the course..."
  else none

/-- One NDJSON line of the streaming response: a progress record or the
final result record, each carrying a text field. -/
inductive Record where
  | progress (text : String)
  | result (text : String)
  deriving DecidableEq, Repr

/-- Recognise result records. -/
def isResultRec : Record → Bool
  | Record.result _ => true
  | Record.progress _ => false

/-- The progress records one event causes to be emitted: one record if
the author is in the known set, none otherwise. -/
def eventRecords (e : Event) : List Record :=
  match progressText e.author with
  | some m => [Record.progress m]
  | none => []

/-- Inner loop of the streaming accumulation
(`src/orchestrator/app/server.py:98-100`):
`if part.text: final_text += part.text` (no separator). -/
def partStep (acc : String) (p : Part) : String :=
  match p.text with
  | some t => if t = "" then acc else acc ++ t
  | none => acc

/-- Per-event text accumulation of the streaming handler. -/
def textStep (acc : String) (e : Event) : String :=
  match e.content with
  | some c => if c.parts.isEmpty then acc else c.parts.foldl partStep acc
  | none => acc

/-- One iteration of `event_generator`'s loop
(`src/orchestrator/app/server.py:85-100`): append the event's progress
record (if any) to the emitted lines, and fold its text parts into the
running buffer. -/
def streamStep (st : List Record × String) (e : Event) : List Record × String :=
  (st.1 ++ eventRecords e, textStep st.2 e)

/-- The running final buffer of `event_generator` after consuming the
whole turn. -/
def streamFinal (events : List Event) : String :=
  (events.foldl streamStep ([], "")).2

/-- The full line sequence emitted by `event_generator`
(`src/orchestrator/app/server.py:83-103`): the interleaved progress
records in event order, then exactly one result record carrying the
stripped accumulated buffer. -/
def chatStreamOutput (events : List Event) : List Record :=
  let st := events.foldl streamStep ([], "")
  st.1 ++ [Record.result (pyStrip st.2)]

/-- A session of the in-memory session service, as used by the servers:
identified by app name, user id, and its id (which equals the requested
`session_id` when one is supplied at creation). -/
structure Session where
  appName : String
  userId : String
  id : String
  deriving DecidableEq, Repr

/-- Fetch a session by the (app_name, user_id, session_id) triple from
the in-memory store; `none` when absent. -/
def getSession (store : List Session) (appName userId sessionId : String) :
    Option Session :=
  store.find? fun s => s.appName == appName && s.userId == userId && s.id == sessionId

/-- Create a session with exactly the requested triple and add it to
the store. -/
def createSession (store : List Session) (appName userId sessionId : String) :
    Session × List Session :=
  let s : Session := ⟨appName, userId, sessionId⟩
  (s, s :: store)

/-- The get-or-create logic of every chat handler against the concrete
in-memory store: fetch by the triple; if absent, create with the same
triple (`src/app/server.py:120-132` and its two clones). -/
def resolveSession (store : List Session) (appName userId sessionId : String) :
    Session × List Session :=
  match getSession store appName userId sessionId with
  | some s => (s, store)
  | none => createSession store appName userId sessionId

/-- The handlers' error discipline around session resolution, with the
fetch and create outcomes abstracted: `try: session = get_session(...)
except Exception: session = None; if not session: session = create_session(...)`.
A raised fetch (`Except.error`) and a fetch returning no session both
collapse to `none`; only the create outcome can then surface. -/
def ensureSession (fetchResult : Except Unit (Option Session))
    (createResult : Except Unit Session) : Except Unit Session :=
  match (match fetchResult with
         | Except.ok o => o
         | Except.error _ => none) with
  | some s => Except.ok s
  | none => createResult

/-- The Feedback schema (`src/orchestrator/app/server.py:29-33`). -/
structure Feedback where
  score : Float
  text : Option String := none
  run_id : Option String := none
  user_id : Option String := none

/-- The `/feedback` handler (`src/app/server.py:155-167`,
`src/orchestrator/app/server.py:107-110`): log and return
`{"status": "success"}`.  The server's only persisted state (the
session store) is threaded through to make its non-mutation explicit. -/
def collect_feedback (feedback : Feedback) (store : List Session) :
    List (String × String) × List Session :=
  ([("status", "success")], store)

/-- Spec-side description of the buffered aggregation: the fragments
joined with a newline separator between consecutive fragments. -/
def sepNl : List String → String
  | [] => ""
  | [f] => f
  | f :: fs => f ++ "\n" ++ sepNl fs

/-- Spec-side description of the streaming accumulation: plain
concatenation of the fragments, no separator. -/
def concatFrags : List String → String
  | [] => ""
  | f :: fs => f ++ concatFrags fs

/-- Closed form of what the buffered loop builds: every fragment
followed by a newline. -/
def glueNl : List String → String
  | [] => ""
  | f :: fs => f ++ "\n" ++ glueNl fs

theorem glueNl_append (l1 l2 : List String) :
    glueNl (l1 ++ l2) = glueNl l1 ++ glueNl l2 := by
  induction l1 with
  | nil => simp [glueNl]
  | cons f fs ih => simp [glueNl, ih, String.append_assoc]

theorem concatFrags_append (l1 l2 : List String) :
    concatFrags (l1 ++ l2) = concatFrags l1 ++ concatFrags l2 := by
  induction l1 with
  | nil => simp [concatFrags]
  | cons f fs ih => simp [concatFrags, ih, String.append_assoc]

theorem foldl_partStepNl (ps : List Part) (acc : String) :
    ps.foldl partStepNl acc = acc ++ glueNl (ps.filterMap fragOf) := by
  induction ps generalizing acc with
  | nil => simp [glueNl]
  | cons p ps ih =>
    cases hp : p.text with
    | none =>
      simp [List.foldl_cons, partStepNl, hp, List.filterMap_cons, fragOf, ih]
    | some t =>
      by_cases ht : t = ""
      · simp [List.foldl_cons, partStepNl, hp, ht, List.filterMap_cons, fragOf, ih]
      · simp [List.foldl_cons, partStepNl, hp, ht, List.filterMap_cons, fragOf, ih,
          glueNl, String.append_assoc]

theorem bufferedStep_eq (acc : String) (e : Event) :
    bufferedStep acc e = acc ++ glueNl (eventFragments e) := by
  cases hc : e.content with
  | none => simp [bufferedStep, eventFragments, hc, glueNl]
  | some c =>
    by_cases hp : c.parts.isEmpty
    · simp [bufferedStep, eventFragments, hc, hp, glueNl]
    · simp [bufferedStep, eventFragments, hc, hp, foldl_partStepNl]

theorem turnFragments_cons (e : Event) (es : List Event) :
    turnFragments (e :: es) = eventFragments e ++ turnFragments es := by
  simp [turnFragments]

theorem foldl_bufferedStep (events : List Event) (acc : String) :
    events.foldl bufferedStep acc = acc ++ glueNl (turnFragments events) := by
  induction events generalizing acc with
  | nil => simp [turnFragments, glueNl]
  | cons e es ih =>
    rw [List.foldl_cons, ih, bufferedStep_eq, turnFragments_cons, glueNl_append,
      String.append_assoc]

theorem ws_nl : isPyWs '\x0a' = true := by decide

theorem dropRightWs_append_nl (l : List Char) :
    dropRightWs (l ++ ['\x0a']) = dropRightWs l := by
  simp [dropRightWs, List.reverse_append, List.dropWhile_cons, ws_nl]

theorem pyStrip_append_nl (s : String) : pyStrip (s ++ "\n") = pyStrip s := by
  have h : (s ++ "\n").data = s.data ++ ['\x0a'] := by
    rw [String.data_append]
  simp [pyStrip, h, dropRightWs_append_nl]

theorem glueNl_eq_sepNl_nl (f : String) (fs : List String) :
    glueNl (f :: fs) = sepNl (f :: fs) ++ "\n" := by
  induction fs generalizing f with
  | nil => simp [glueNl, sepNl]
  | cons g gs ih =>
    have h1 : glueNl (f :: g :: gs) = f ++ "\n" ++ glueNl (g :: gs) := rfl
    rw [h1, ih g]
    simp [sepNl, String.append_assoc]

theorem pyStrip_glueNl (fs : List String) :
    pyStrip (glueNl fs) = pyStrip (sepNl fs) := by
  cases fs with
  | nil => rfl
  | cons f fs => rw [glueNl_eq_sepNl_nl, pyStrip_append_nl]

theorem foldl_partStep (ps : List Part) (acc : String) :
    ps.foldl partStep acc = acc ++ concatFrags (ps.filterMap fragOf) := by
  induction ps generalizing acc with
  | nil => simp [concatFrags]
  | cons p ps ih =>
    cases hp : p.text with
    | none =>
      simp [List.foldl_cons, partStep, hp, List.filterMap_cons, fragOf, ih]
    | some t =>
      by_cases ht : t = ""
      · simp [List.foldl_cons, partStep, hp, ht, List.filterMap_cons, fragOf, ih]
      · simp [List.foldl_cons, partStep, hp, ht, List.filterMap_cons, fragOf, ih,
          concatFrags, String.append_assoc]

theorem textStep_eq (acc : String) (e : Event) :
    textStep acc e = acc ++ concatFrags (eventFragments e) := by
  cases hc : e.content with
  | none => simp [textStep, eventFragments, hc, concatFrags]
  | some c =>
    by_cases hp : c.parts.isEmpty
    · simp [textStep, eventFragments, hc, hp, concatFrags]
    · simp [textStep, eventFragments, hc, hp, foldl_partStep]

theorem foldl_streamStep (events : List Event) (st : List Record × String) :
    events.foldl streamStep st =
      (st.1 ++ (events.map eventRecords).flatten,
       st.2 ++ concatFrags (turnFragments events)) := by
  induction events generalizing st with
  | nil => simp [turnFragments, concatFrags]
  | cons e es ih =>
    rw [List.foldl_cons, ih]
    simp [streamStep, textStep_eq, turnFragments_cons, concatFrags_append,
      String.append_assoc]

theorem chatStreamOutput_eq (events : List Event) :
    chatStreamOutput events =
      (events.map eventRecords).flatten ++
        [Record.result (pyStrip (concatFrags (turnFragments events)))] := by
  simp [chatStreamOutput, foldl_streamStep]

theorem streamFinal_eq (events : List Event) :
    streamFinal events = concatFrags (turnFragments events) := by
  simp [streamFinal, foldl_streamStep]

theorem eventRecords_no_result (e : Event) (r : Record) (hr : r ∈ eventRecords e) :
    isResultRec r = false := by
  unfold eventRecords at hr
  cases h : progressText e.author with
  | none => simp [h] at hr
  | some m =>
    simp [h] at hr
    subst hr
    rfl

theorem filter_result_flatten (events : List Event) :
    ((events.map eventRecords).flatten.filter isResultRec) = [] := by
  rw [List.filter_eq_nil_iff]
  intro r hr
  rw [List.mem_flatten] at hr
  obtain ⟨l, hl, hrl⟩ := hr
  rw [List.mem_map] at hl
  obtain ⟨e, _, rfl⟩ := hl
  simp [eventRecords_no_result e r hrl]

theorem turnFragments_append (l1 l2 : List Event) :
    turnFragments (l1 ++ l2) = turnFragments l1 ++ turnFragments l2 := by
  simp [turnFragments]

theorem chatResponse_eq (events : List Event) :
    chatResponse events = pyStrip (glueNl (turnFragments events)) := by
  rw [chatResponse, foldl_bufferedStep, String.empty_append]

/-- C1: the buffered `/api/chat` response equals the newline-separated
concatenation of all non-empty text parts of the turn, in event and
part order, stripped of leading/trailing whitespace; in particular the
fragments ["Hello, ", "world"] yield "Hello, \nworld". -/
theorem chat_buffered_response_spec :
    (∀ events : List Event,
      chatResponse events = pyStrip (sepNl (turnFragments events))) ∧
    chatResponse [⟨"agent", some ⟨[⟨some "Hello, "⟩, ⟨some "world"⟩]⟩⟩]
      = "Hello, \nworld" := by
  refine ⟨fun events => ?_, by decide⟩
  rw [chatResponse_eq, pyStrip_glueNl]

/-- C2: the streamed `/api/chat_stream` response contains exactly one
result record, it is the last line, and its text is the trimmed
no-separator concatenation of all non-empty text parts of the turn;
no intermediate text appears as a result record. -/
theorem chat_stream_single_result :
    ∀ events : List Event,
      (chatStreamOutput events).filter isResultRec
        = [Record.result (pyStrip (concatFrags (turnFragments events)))] ∧
      (chatStreamOutput events).getLast?
        = some (Record.result (pyStrip (concatFrags (turnFragments events)))) := by
  intro events
  constructor
  · rw [chatStreamOutput_eq, List.filter_append, filter_result_flatten]
    rfl
  · rw [chatStreamOutput_eq]
    exact List.getLast?_concat ..

/-- C3: streamed records appear strictly in event order with the result
record last; for researcher/judge/content_builder events whose only text
is a final "Done", the lines are the three progress records followed by
result("Done"). -/
theorem chat_stream_order :
    (∀ events : List Event,
      chatStreamOutput events
        = (events.map eventRecords).flatten
          ++ [Record.result (pyStrip (concatFrags (turnFragments events)))]) ∧
    chatStreamOutput
        [⟨"researcher", none⟩, ⟨"judge", none⟩,
         ⟨"content_builder", some ⟨[⟨some "Done"⟩]⟩⟩]
      = [Record.progress "🔍 Researcher is gathering information...",
         Record.progress "⚖️ Judge is evaluating findings...",
         Record.progress "✍️ Content Builder is writing the course...",
         Record.result "Done"] :=
  ⟨chatStreamOutput_eq, by decide⟩

/-- C4: a fetch that raises or returns no session is treated uniformly
as absence — the handler proceeds to create a session with the exact
requested triple — and only the create outcome (success or failure)
surfaces to the caller. -/
theorem session_fetch_failure_masked :
    (∀ c : Except Unit Session, ensureSession (Except.error ()) c = c) ∧
    (∀ c : Except Unit Session, ensureSession (Except.ok none) c = c) ∧
    (∀ (s : Session) (c : Except Unit Session),
      ensureSession (Except.ok (some s)) c = Except.ok s) ∧
    (∀ (store : List Session) (a u sid : String),
      (createSession store a u sid).1 = ⟨a, u, sid⟩) :=
  ⟨fun _ => rfl, fun _ => rfl, fun _ _ => rfl, fun _ _ _ _ => rfl⟩

/-- C5: session resolution is idempotent per triple — a fresh triple
creates exactly one session, an immediate repeat (and any request that
finds the session) reuses it without changing the store. -/
theorem session_resolution_idempotent :
    ∀ (store : List Session) (a u sid : String),
      (getSession store a u sid = none →
        resolveSession store a u sid
          = (⟨a, u, sid⟩, (⟨a, u, sid⟩ : Session) :: store) ∧
        resolveSession ((⟨a, u, sid⟩ : Session) :: store) a u sid
          = (⟨a, u, sid⟩, (⟨a, u, sid⟩ : Session) :: store)) ∧
      (∀ s, getSession store a u sid = some s →
        resolveSession store a u sid = (s, store)) := by
  intro store a u sid
  constructor
  · intro h
    constructor
    · rw [resolveSession, h]
      rfl
    · rw [resolveSession]
      have hfind : getSession ((⟨a, u, sid⟩ : Session) :: store) a u sid
          = some ⟨a, u, sid⟩ := by
        simp [getSession, List.find?]
      rw [hfind]
  · intro s h
    rw [resolveSession, h]

theorem session_resolution_idempotent_witness :
    resolveSession [] "app" "u1" "s1"
      = (⟨"app", "u1", "s1"⟩, [⟨"app", "u1", "s1"⟩]) ∧
    resolveSession [⟨"app", "u1", "s1"⟩] "app" "u1" "s1"
      = (⟨"app", "u1", "s1"⟩, [⟨"app", "u1", "s1"⟩]) :=
  (session_resolution_idempotent [] "app" "u1" "s1").1 (by decide)

/-- C6: an event with absent content or empty parts contributes no
fragments; a part with absent or empty text contributes none; only
non-empty texts are kept, in part order; and a fragmentless event
changes neither the buffered response nor the streaming final buffer. -/
theorem aggregation_skips_empty :
    (∀ a : String, eventFragments ⟨a, none⟩ = []) ∧
    (∀ a : String, eventFragments ⟨a, some ⟨[]⟩⟩ = []) ∧
    fragOf ⟨none⟩ = none ∧
    fragOf ⟨some ""⟩ = none ∧
    (∀ t : String, t ≠ "" → fragOf ⟨some t⟩ = some t) ∧
    (∀ (a : String) (ps : List Part),
      eventFragments ⟨a, some ⟨ps⟩⟩ = ps.filterMap fragOf) ∧
    (∀ (e : Event) (pre post : List Event), eventFragments e = [] →
      chatResponse (pre ++ e :: post) = chatResponse (pre ++ post) ∧
      streamFinal (pre ++ e :: post) = streamFinal (pre ++ post)) := by
  refine ⟨fun a => rfl, fun a => rfl, rfl, rfl, fun t ht => by simp [fragOf, ht],
    fun a ps => ?_, fun e pre post h => ?_⟩
  · cases ps with
    | nil => rfl
    | cons p ps => rfl
  · have ht : turnFragments (pre ++ e :: post) = turnFragments (pre ++ post) := by
      rw [turnFragments_append, turnFragments_cons, h, turnFragments_append]
      rfl
    exact ⟨by rw [chatResponse_eq, chatResponse_eq, ht],
      by rw [streamFinal_eq, streamFinal_eq, ht]⟩

theorem aggregation_skips_empty_witness :
    fragOf ⟨some "x"⟩ = some "x" ∧
    chatResponse [⟨"r", some ⟨[⟨some "hi"⟩]⟩⟩, ⟨"z", none⟩]
      = chatResponse [⟨"r", some ⟨[⟨some "hi"⟩]⟩⟩] :=
  ⟨aggregation_skips_empty.2.2.2.2.1 "x" (by decide),
   (aggregation_skips_empty.2.2.2.2.2.2 ⟨"z", none⟩
      [⟨"r", some ⟨[⟨some "hi"⟩]⟩⟩] [] (by decide)).1⟩

/-- C7: an event whose author is outside
{"researcher", "judge", "content_builder"} emits no progress record, yet
its non-empty text parts still enter the final buffer, so the stream's
record list is as if the event were dropped while the result text still
counts its fragments. -/
theorem unknown_author_contributes_text_only :
    ∀ a : String, a ≠ "researcher" → a ≠ "judge" → a ≠ "content_builder" →
      ∀ c : Option Content,
        eventRecords ⟨a, c⟩ = [] ∧
        ∀ pre post : List Event,
          streamFinal (pre ++ (⟨a, c⟩ : Event) :: post)
            = streamFinal pre ++ concatFrags (eventFragments ⟨a, c⟩)
              ++ streamFinal post ∧
          chatStreamOutput (pre ++ (⟨a, c⟩ : Event) :: post)
            = ((pre ++ post).map eventRecords).flatten
              ++ [Record.result (pyStrip (concatFrags
                    (turnFragments (pre ++ (⟨a, c⟩ : Event) :: post))))] := by
  intro a h1 h2 h3 c
  have hrec : eventRecords ⟨a, c⟩ = [] := by
    simp [eventRecords, progressText, h1, h2, h3]
  refine ⟨hrec, fun pre post => ⟨?_, ?_⟩⟩
  · rw [streamFinal_eq, streamFinal_eq, streamFinal_eq, turnFragments_append,
      turnFragments_cons, concatFrags_append, concatFrags_append,
      String.append_assoc]
  · rw [chatStreamOutput_eq]
    congr 1
    simp [hrec]

theorem unknown_author_contributes_text_only_witness :
    eventRecords ⟨"planner", some ⟨[⟨some "hi"⟩]⟩⟩ = [] :=
  (unknown_author_contributes_text_only "planner" (by decide) (by decide)
    (by decide) (some ⟨[⟨some "hi"⟩]⟩)).1

/-- C8: the feedback endpoint answers `{"status": "success"}`
unconditionally and leaves the server's persisted state untouched; two
identical calls give two identical responses and no state change. -/
theorem feedback_success_stateless :
    ∀ (f : Feedback) (store : List Session),
      collect_feedback f store = ([("status", "success")], store) ∧
      (collect_feedback f (collect_feedback f store).2).1
          = (collect_feedback f store).1 ∧
      (collect_feedback f (collect_feedback f store).2).2 = store :=
  fun _ _ => ⟨rfl, rfl, rfl⟩

/-- C9: an empty event sequence is not an error — the buffered endpoint
returns the empty response and the streaming endpoint emits exactly the
single empty result record. -/
theorem empty_turn_not_error :
    chatResponse [] = "" ∧ chatStreamOutput [] = [Record.result ""] := by
  decide

/-- C10: the progress decision depends only on the event's author:
content never matters, each of the three known authors emits exactly one
progress record even with no content, and any event emits at most one. -/
theorem progress_depends_only_on_author :
    (∀ (a : String) (c c' : Option Content),
      eventRecords ⟨a, c⟩ = eventRecords ⟨a, c'⟩) ∧
    (∀ c : Option Content,
      eventRecords ⟨"researcher", c⟩
        = [Record.progress "🔍 Researcher is gathering information..."] ∧
      eventRecords ⟨"judge", c⟩
        = [Record.progress "⚖️ Judge is evaluating findings..."] ∧
      eventRecords ⟨"content_builder", c⟩
        = [Record.progress "✍️ Content Builder is writing the course..."]) ∧
    (∀ e : Event, (eventRecords e).length ≤ 1) := by
  refine ⟨fun a c c' => rfl, fun c => ⟨rfl, rfl, rfl⟩, fun e => ?_⟩
  unfold eventRecords
  cases progressText e.author <;> simp

end CourseAgent
